import Mathlib

/-!
Verification of the Safe Query Execution and Pagination/Caching Engine of the
NeuroQuery agent (a JavaScript service).  The JavaScript source is embedded
shallowly: each service method becomes a Lean function over explicit inputs,
with the external collaborators (the relational database, the Redis client,
the JSON codec of the runtime, gzip) passed in as function parameters.
Strings are processed as `List Char`, which matches the character-by-character
behaviour of the regular expressions used by the source.
-/

namespace NeuroQuery

/-! ## Character and list helpers mirroring the JavaScript primitives -/

/-- ASCII whitespace as matched by the `\s` class and by `String.prototype.trim`
for the inputs considered here (space, tab, line feed, carriage return,
vertical tab, form feed). -/
def isWsChar (c : Char) : Bool :=
  c = ' ' || c = '\t' || c = '\n' || c = '\r' || c.toNat = 11 || c.toNat = 12

/-- A word character in the sense of the `\b` and `\w` regex classes:
ASCII letters, digits and the underscore. -/
def isWordChar (c : Char) : Bool :=
  c.isAlpha || c.isDigit || c = '_'

/-- `String.prototype.trim`: drop leading and trailing whitespace. -/
def jsTrim (s : List Char) : List Char :=
  ((s.dropWhile isWsChar).reverse.dropWhile isWsChar).reverse

/-- `String.prototype.toLowerCase`, character by character (ASCII). -/
def toLowerL (s : List Char) : List Char :=
  s.map Char.toLower

/-- Does `p` occur as a prefix of `s`? -/
def isPrefixL : List Char → List Char → Bool
  | [], _ => true
  | _ :: _, [] => false
  | p :: ps, c :: cs => p == c && isPrefixL ps cs

/-- Does `pat` occur as a contiguous substring of `s`? -/
def containsL : List Char → List Char → Bool
  | [], pat => isPrefixL pat []
  | c :: rest, pat => isPrefixL pat (c :: rest) || containsL rest pat

/-- Word-boundary condition on the character preceding an occurrence. -/
def boundaryBefore : Option Char → Bool
  | none => true
  | some c => !isWordChar c

/-- Word-boundary condition on the character following an occurrence of `kw`
inside `s` (where `kw` was just matched as a prefix of `s`). -/
def boundaryAfter (kw s : List Char) : Bool :=
  match s.drop kw.length with
  | [] => true
  | c :: _ => !isWordChar c

/-- Scan of the regex `\bkw\b` carrying the previously read character.
All keywords of the denylist consist solely of word characters, for which
`\b` demands a non-word character (or the string edge) on either side. -/
def wholeWordFrom (kw : List Char) : Option Char → List Char → Bool
  | prev, [] => boundaryBefore prev && isPrefixL kw []
  | prev, c :: rest =>
    (boundaryBefore prev && isPrefixL kw (c :: rest) && boundaryAfter kw (c :: rest))
      || wholeWordFrom kw (some c) rest

/-- Whole-word containment: the test performed by
`new RegExp(&#92;&#92;b + keyword + &#92;&#92;b, i).test(text)` for a keyword made of word
characters, applied to text that is already lower-cased. -/
def wholeWordContains (s kw : List Char) : Bool :=
  wholeWordFrom kw none s

/-! ## The validator (queryExecutionService.validateQuery) -/

/-- The fixed denylist of the source, in source order. -/
def blacklistedKeywords : List String :=
  ["insert", "update", "delete", "drop", "create", "alter", "truncate",
   "grant", "revoke", "exec", "execute", "call", "declare", "set",
   "use", "backup", "restore", "shutdown", "xp_", "sp_", "fn_",
   "openrowset", "opendatasource", "bulk", "into", "outfile",
   "dumpfile", "load_file", "pg_", "mysql",
   "performance_schema", "sys"]

/-- First denylist entry that matches the (trimmed, lower-cased) text as a
whole word; the source loop throws on the first hit. -/
def firstBlacklisted (t : List Char) : Option String :=
  blacklistedKeywords.find? (fun kw => wholeWordContains t kw.data)

/-- The trimmed, lower-cased working copy built at the top of `validateQuery`. -/
def normalizeSQL (sql : String) : List Char :=
  toLowerL (jsTrim sql.data)

/-- Regex 1 helper: after a semicolon, skip `\s*` and look for one of the
mutating keywords (no trailing word boundary in the source pattern).
The keywords start with non-whitespace characters, so consuming the maximal
whitespace run is equivalent to the backtracking regex. -/
def mutatingAfterWs (s : List Char) : Bool :=
  let t := toLowerL (s.dropWhile isWsChar)
  ["drop", "delete", "update", "insert", "create", "alter"].any
    (fun k => isPrefixL k.data t)

/-- Regex 1: `;\s*(drop|delete|update|insert|create|alter)` with flag i. -/
def semiThenMutating : List Char → Bool
  | [] => false
  | c :: rest => (c = ';' && mutatingAfterWs rest) || semiThenMutating rest

/-- Regex 2 helper, applied to the already lower-cased text after an
occurrence of the characters of the word union: `\s+select`. -/
def wsThenSelect (t : List Char) : Bool :=
  !(t.takeWhile isWsChar).isEmpty && isPrefixL "select".data (t.dropWhile isWsChar)

/-- Regex 2: `union\s+select` with flag i, scanned over the lower-cased text. -/
def unionSelectFrom : List Char → Bool
  | [] => false
  | c :: rest =>
    (isPrefixL "union".data (c :: rest) && wsThenSelect ((c :: rest).drop 5))
      || unionSelectFrom rest

/-- Line terminators that the dot of a JavaScript regex does not match. -/
def isLineTerm (c : Char) : Bool :=
  c = '\n' || c = '\r' || c.toNat = 0x2028 || c.toNat = 0x2029

/-- After an opening block-comment marker: is there a closing marker with no
line terminator in between?  (The dot in `/\*.*\*\//` does not cross lines.) -/
def closedNoNewline : List Char → Bool
  | [] => false
  | c :: rest => isPrefixL "*/".data (c :: rest) || (!isLineTerm c && closedNoNewline rest)

/-- Regex 3: `/\*.*\*\//`, a block comment opened and closed on one line. -/
def blockCommentFrom : List Char → Bool
  | [] => false
  | c :: rest =>
    (isPrefixL "/*".data (c :: rest) && closedNoNewline ((c :: rest).drop 2))
      || blockCommentFrom rest

/-- Regex 4: `--\s`, two dashes followed by a whitespace character.  Note that
a bare `--` with no following whitespace does not match this pattern. -/
def dashDashWs : List Char → Bool
  | [] => false
  | c :: rest =>
    (c = '-' && (match rest with
                 | d :: e :: _ => d = '-' && isWsChar e
                 | _ => false))
      || dashDashWs rest

/-- The disjunction of the seven injection-shape patterns the source tests
against the raw (non-lower-cased) text: a semicolon followed by a mutating
keyword, UNION SELECT, a one-line block comment, a line comment of the form
dash-dash-whitespace, a hash character anywhere, and the two privileged
procedure names xp_cmdshell and sp_executesql. -/
def injectionDetected (s : List Char) : Bool :=
  semiThenMutating s
    || unionSelectFrom (toLowerL s)
    || blockCommentFrom s
    || dashDashWs s
    || s.any (fun c => c = '#')
    || containsL (toLowerL s) "xp_cmdshell".data
    || containsL (toLowerL s) "sp_executesql".data

/-- `validateQuery(sql)`: throws (here: returns `.error`) with the message of
the first failing rule, in source order: SELECT prefix, keyword denylist,
injection patterns, maximal length, balanced parentheses. -/
def validateQuery (sql : String) : Except String Unit :=
  let trimmedSQL := normalizeSQL sql
  if !isPrefixL "select".data trimmedSQL then
    .error "Only SELECT statements are allowed"
  else
    match firstBlacklisted trimmedSQL with
    | some keyword => .error ("Forbidden keyword detected: " ++ keyword)
    | none =>
      if injectionDetected sql.data then
        .error "Potential SQL injection detected"
      else if sql.data.length > 10000 then
        .error "Query too long"
      else if sql.data.count '(' ≠ sql.data.count ')' then
        .error "Unbalanced parentheses in query"
      else
        .ok ()

/-! ## The pagination rewriter (queryExecutionService.addPaginationToSQL) -/

/-- `replace(/;+$/, )` with an empty replacement: drop the trailing run of
semicolons. -/
def stripTrailingSemis (s : List Char) : List Char :=
  (s.reverse.dropWhile (fun c => c = ';')).reverse

/-- Split a list into its maximal prefix satisfying `p` and the rest. -/
def takeDrop (p : Char → Bool) (l : List Char) : List Char × List Char :=
  (l.takeWhile p, l.dropWhile p)

/-- Match a fixed lower-case word (given reversed) against the head of a
reversed character list, case-insensitively; return the remainder. -/
def matchWordRev : List Char → List Char → Option (List Char)
  | [], r => some r
  | _ :: _, [] => none
  | a :: ws, c :: cs => if c.toLower = a then matchWordRev ws cs else none

/-- Decimal value of a digit list (most significant first). -/
def parseNatDigits (ds : List Char) : Nat :=
  ds.foldl (fun n c => n * 10 + (c.toNat - '0'.toNat)) 0

/-- The fallback branch of the trailing-limit matcher: the optional OFFSET
group is absent, so the digits just read must be preceded by
whitespace-LIMIT-whitespace. `d1` are the digits read from the end (reversed),
`r2` the remainder after them and the following whitespace run. -/
def matchLimitOnly (d1 r2 : List Char) : Option (Nat × List Char) :=
  match matchWordRev "timil".data r2 with
  | some r3 =>
    let (w, r4) := takeDrop isWsChar r3
    if w.isEmpty then none else some (parseNatDigits d1.reverse, r4.reverse)
  | none => none

/-- Trailing-anchor matcher for `\s+LIMIT\s+(\d+)(\s+OFFSET\s+\d+)?$` (flag i),
operating on the reversed statement.  Returns the captured limit together with
the statement with the whole matched clause removed (in reading order). -/
def matchTrailingLimit (s : List Char) : Option (Nat × List Char) :=
  let r := s.reverse
  let (d1, r1) := takeDrop Char.isDigit r
  if d1.isEmpty then none
  else
    let (w1, r2) := takeDrop isWsChar r1
    if w1.isEmpty then none
    else
      match matchWordRev "tesffo".data r2 with
      | some r3 =>
        let (w2, r4) := takeDrop isWsChar r3
        let (d2, r5) := takeDrop Char.isDigit r4
        let (w3, r6) := takeDrop isWsChar r5
        if w2.isEmpty || d2.isEmpty || w3.isEmpty then matchLimitOnly d1 r2
        else
          match matchWordRev "timil".data r6 with
          | some r7 =>
            let (w4, r8) := takeDrop isWsChar r7
            if w4.isEmpty then matchLimitOnly d1 r2
            else some (parseNatDigits d2.reverse, r8.reverse)
          | none => matchLimitOnly d1 r2
      | none => matchLimitOnly d1 r2

/-- `addPaginationToSQL(sql, limit, offset)`.  The paginating dialect comes
from configuration (the DB_TYPE environment variable, default postgresql) and
is passed here as the explicit argument `dbType`.  Trailing semicolons are
stripped, an existing trailing LIMIT clause is reconciled by taking the
minimum, and the dialectal limit/offset clause is appended. -/
def addPaginationToSQL (sql : String) (limit offset : Nat) (dbType : String) : String :=
  let cleanSQL := stripTrailingSemis (jsTrim sql.data)
  let step :=
    match matchTrailingLimit cleanSQL with
    | some (existingLimit, rest) => (min existingLimit limit, rest)
    | none => (limit, cleanSQL)
  if dbType = "postgresql" then
    String.mk step.2 ++ " LIMIT " ++ toString step.1 ++ " OFFSET " ++ toString offset
  else
    String.mk step.2 ++ " LIMIT " ++ toString offset ++ ", " ++ toString step.1

/-- The count statement built by `getTotalCount`: the original statement,
trimmed and with trailing semicolons stripped, wrapped in a COUNT query. -/
def countSQL (originalSQL : String) : String :=
  "SELECT COUNT(*) as total_count FROM ("
    ++ String.mk (stripTrailingSemis (jsTrim originalSQL.data))
    ++ ") as count_query"

/-! ## JavaScript values and collaborator interfaces

Database rows, cached values and EXPLAIN plans are JSON-shaped JavaScript
values.  `JSON.parse` is an external runtime primitive and is therefore passed
to the functions that use it as an oracle `String → Option Json` (`none`
models a thrown SyntaxError); `JSON.stringify` is modelled concretely below. -/

inductive Json where
  | jnull : Json
  | jbool : Bool → Json
  | jnum : Int → Json
  | jstr : String → Json
  | jarr : List Json → Json
  | jobj : List (String × Json) → Json

/-- Property access `obj[k]` on an object, `none` for undefined. -/
def getField : Json → String → Option Json
  | .jobj fields, k => fields.lookup k
  | _, _ => none

/-- JavaScript truthiness of a JSON-shaped value. -/
def truthy : Json → Bool
  | .jnull => false
  | .jbool b => b
  | .jnum n => n ≠ 0
  | .jstr s => s ≠ ""
  | _ => true

/-- The `a || b` operator where `a` may be undefined (`none`): yields `b`
whenever `a` is missing or falsy. -/
def orElseJS (a : Option Json) (b : Json) : Json :=
  match a with
  | some v => if truthy v then v else b
  | none => b

/-- String escaping performed by `JSON.stringify` on the characters relevant
here (quote, backslash and the common control characters). -/
def escapeJsonChar (c : Char) : String :=
  if c = '"' then "\\\""
  else if c = '\\' then "\\\\"
  else if c = '\n' then "\\n"
  else if c = '\r' then "\\r"
  else if c = '\t' then "\\t"
  else String.singleton c

mutual

/-- Model of `JSON.stringify` (object key order is insertion order, as in
JavaScript). -/
def jsonStringify : Json → String
  | .jnull => "null"
  | .jbool true => "true"
  | .jbool false => "false"
  | .jnum n => toString n
  | .jstr s => "\"" ++ String.join (s.data.map escapeJsonChar) ++ "\""
  | .jarr es => "[" ++ stringifyElems es ++ "]"
  | .jobj fs => "\x7b" ++ stringifyFields fs ++ "\x7d"

def stringifyElems : List Json → String
  | [] => ""
  | [j] => jsonStringify j
  | j :: rest => jsonStringify j ++ "," ++ stringifyElems rest

def stringifyFields : List (String × Json) → String
  | [] => ""
  | [(k, v)] => "\"" ++ String.join (k.data.map escapeJsonChar) ++ "\":" ++ jsonStringify v
  | (k, v) :: rest =>
    "\"" ++ String.join (k.data.map escapeJsonChar) ++ "\":" ++ jsonStringify v
      ++ "," ++ stringifyFields rest

end

/-- Leading-digits parse of `parseInt` (radix 10, optional sign, surrounding
whitespace skipped; `none` models NaN). -/
def parseIntStr (s : String) : Option Int :=
  let t := s.data.dropWhile isWsChar
  let digitsOf := fun (l : List Char) =>
    let ds := l.takeWhile Char.isDigit
    if ds.isEmpty then none else some (parseNatDigits ds)
  match t with
  | '-' :: rest => (digitsOf rest).map (fun n => -(n : Int))
  | '+' :: rest => (digitsOf rest).map (fun n => (n : Int))
  | _ => (digitsOf t).map (fun n => (n : Int))

/-- `parseInt` applied to an arbitrary value (numbers are stringified first,
which round-trips for integers; other shapes give NaN, modelled `none`). -/
def jsParseInt : Json → Option Int
  | .jnum n => some n
  | .jstr s => parseIntStr s
  | _ => none

/-- A column descriptor as delivered by the database driver. -/
structure DBField where
  name : String
  dataTypeID : Option Int
  ftype : Option String

/-- The result shape of the database collaborator
(`database.query(text) → rows and fields`); the driver may omit `fields`. -/
structure DBRes where
  rows : List Json
  fields : Option (List DBField)

/-- The database collaborator: statement text in, rows out or a thrown error. -/
abbrev DB := String → Except String DBRes

/-! ## The executor (executeWithPagination, getTotalCount, executeQuery) -/

/-- `page < 1` is clamped to 1 (inside executeWithPagination). -/
def clampPage (page : Int) : Int :=
  if page < 1 then 1 else page

/-- `pageSize` outside 1..100 is replaced by the default 50 (inside
executeWithPagination). -/
def clampPageSize (pageSize : Int) : Int :=
  if pageSize < 1 ∨ pageSize > 100 then 50 else pageSize

/-- `Math.ceil(a / b)` for integers with `b > 0`. -/
def jsCeilDiv (a b : Int) : Int :=
  -(Int.fdiv (-a) b)

/-- `getTotalCount(originalSQL)`: wrap the original statement in a COUNT
query; on any database failure return 0 (the source logs and falls back).
The value of the `total_count` column (or its upper-case variant) is read
with `parseInt`; a non-numeric value, which would yield NaN in JavaScript,
is modelled as 0 here (no claim exercises that corner). -/
def getTotalCount (db : DB) (originalSQL : String) : Int :=
  match db (countSQL originalSQL) with
  | .error _ => 0
  | .ok res =>
    match res.rows.head? with
    | none => 0
    | some row =>
      match jsParseInt (orElseJS (getField row "total_count")
              (orElseJS (getField row "TOTAL_COUNT") (.jnum 0))) with
      | some n => n
      | none => 0

/-- Pagination metadata attached to a query result. -/
structure Pagination where
  page : Int
  pageSize : Int
  totalRows : Int
  totalPages : Int
  hasNextPage : Bool
  hasPreviousPage : Bool

/-- A normalized column descriptor: `name` plus
`field.dataTypeID || field.type` (undefined when both are missing or the
first is falsy and the second missing). -/
structure FieldMeta where
  name : String
  ftype : Option Json

/-- `metadata` of a query result.  The wall-clock `executionTime` of the
source is real time and has no counterpart in this embedding. -/
structure QueryMeta where
  rowCount : Nat
  fields : List FieldMeta

structure QueryResult where
  rows : List Json
  pagination : Pagination
  metadata : QueryMeta
  fromCache : Bool

/-- `field.dataTypeID || field.type` of the source's field normalization. -/
def resolveFieldType (f : DBField) : Option Json :=
  match f.dataTypeID with
  | some n => if n ≠ 0 then some (.jnum n) else f.ftype.map Json.jstr
  | none => f.ftype.map Json.jstr

/-- `executeWithPagination(sql, page, pageSize)`: clamp the pagination
parameters, rewrite the statement, run it, fetch the best-effort total count,
and assemble the result; a failure of the paginated statement is wrapped as
an execution error. -/
def executeWithPagination (db : DB) (dbType : String) (sql : String)
    (page0 pageSize0 : Int) : Except String QueryResult :=
  let page := clampPage page0
  let pageSize := clampPageSize pageSize0
  let offset := (page - 1) * pageSize
  let paginatedSQL := addPaginationToSQL sql pageSize.toNat offset.toNat dbType
  match db paginatedSQL with
  | .error e => .error ("Query execution failed: " ++ e)
  | .ok result =>
    let totalCount := getTotalCount db sql
    let totalPages := jsCeilDiv totalCount pageSize
    .ok
      { rows := result.rows
        pagination :=
          { page := page
            pageSize := pageSize
            totalRows := totalCount
            totalPages := totalPages
            hasNextPage := decide (page < totalPages)
            hasPreviousPage := decide (page > 1) }
        metadata :=
          { rowCount := result.rows.length
            fields := (result.fields.map
              (fun fs => fs.map (fun f => ⟨f.name, resolveFieldType f⟩))).getD [] }
        fromCache := false }

/-- `generateCacheKey(sql, page, pageSize)`.  The source computes the MD5 hex
digest of the string below and prefixes it with `query:result:`.  The digest
is a fixed deterministic function of its input, so the key is modelled as the
prefix applied directly to the digest input; this preserves exactly which
`(sql, page, pageSize)` triples the source maps to the same key (up to MD5
collisions, which the source ignores). -/
def generateCacheKey (sql : String) (page pageSize : Int) : String :=
  "query:result:" ++ sql ++ ":" ++ toString page ++ ":" ++ toString pageSize

/-- `executeQuery(sql, options)` on the non-dry-run path.  Validation comes
first; with caching on, the cache is consulted under the key derived from the
given (unclamped) `page` and `pageSize`; a hit is returned with `fromCache`
set; otherwise the paginated execution runs.
The write-back of a non-empty fresh result to the cache does not alter the
value returned to the caller and is not part of this function's result; the
dry-run branch instead returns `explainQuery` (modelled separately below). -/
def executeQuery (db : DB) (dbType : String)
    (cacheLookup : String → Option QueryResult)
    (sql : String) (page pageSize : Int) (useCache : Bool) :
    Except String QueryResult :=
  match validateQuery sql with
  | .error e => .error e
  | .ok _ =>
    if useCache then
      match cacheLookup (generateCacheKey sql page pageSize) with
      | some cached => .ok { cached with fromCache := true }
      | none => executeWithPagination db dbType sql page pageSize
    else
      executeWithPagination db dbType sql page pageSize

/-! ## The plan analyzer (explainQuery, extractCostFromPlan, analyzeExecutionPlan) -/

/-- Cost figures extracted from an EXPLAIN plan.  The source returns plain
JavaScript values read out of the plan (or the number 0 as fallback), so each
component is an optional JSON value, `none` standing for undefined. -/
structure Cost where
  startupCost : Option Json
  totalCost : Option Json
  estimatedRows : Option Json

/-- The fallback cost object of the source: estimatedRows 0, totalCost 0,
no startup cost. -/
def defaultCost : Cost :=
  ⟨none, some (.jnum 0), some (.jnum 0)⟩

/-- `extractCostFromPlan(planRows)`: look at the first row; parse it when it
is a string (a parse failure is caught and yields the fallback); then read
the PostgreSQL shape (a Plan object) or the MySQL shape (a query_block with
optional cost_info). -/
def extractCostFromPlan (parse : String → Option Json) (planRows : List Json) : Cost :=
  match planRows.head? with
  | none => defaultCost
  | some r0 =>
    let planOpt := match r0 with
      | .jstr s => parse s
      | _ => some r0
    match planOpt with
    | none => defaultCost
    | some plan =>
      match getField plan "Plan" with
      | some p =>
        ⟨getField p "Startup Cost", getField p "Total Cost", getField p "Plan Rows"⟩
      | none =>
        match getField plan "query_block" with
        | some qb =>
          ⟨none,
           some (orElseJS ((getField qb "cost_info").bind (fun ci => getField ci "eval_cost"))
             (.jnum 0)),
           some (orElseJS ((getField qb "cost_info").bind (fun ci => getField ci "read_cost"))
             (.jnum 0))⟩
        | none => defaultCost

/-- `analyzeExecutionPlan(planRows)`: substring heuristics over the
lower-cased serialization of the plan rows. -/
def analyzeExecutionPlan (planRows : List Json) : List String :=
  let planText := toLowerL (jsonStringify (.jarr planRows)).data
  let has := fun (pat : String) => containsL planText pat.data
  (if has "seq scan" || has "table scan" then
     ["Query performs full table scan - consider adding indexes"] else [])
    ++ (if has "nested loop" && has "large" then
     ["Query uses nested loops on large datasets - performance may be slow"] else [])
    ++ (if has "sort" && has "disk" then
     ["Query requires disk-based sorting - consider optimizing"] else [])

/-- The dry-run result shape.  On success there is no error message; on
failure `explainPlan` is null, there is no cost, and the single generic
warning is attached. -/
structure ExplainResult where
  explainPlan : Option (List Json)
  isValid : Bool
  errMsg : Option String
  estimatedCost : Option Cost
  warnings : List String

/-- `explainQuery(sql)`: build the dialectal EXPLAIN statement (an unsupported
dialect throws), run it, and either extract costs and warnings or recover any
failure into an invalid result with the generic warning. -/
def explainQuery (db : DB) (parse : String → Option Json) (dbType : String)
    (sql : String) : ExplainResult :=
  let built : Except String String :=
    if dbType = "postgresql" then
      .ok ("EXPLAIN (FORMAT JSON, ANALYZE false) " ++ sql)
    else if dbType = "mysql" then
      .ok ("EXPLAIN FORMAT=JSON " ++ sql)
    else
      .error ("Explain not supported for database type: " ++ dbType)
  match built with
  | .error e => ⟨none, false, some e, none, ["Query validation failed"]⟩
  | .ok stmt =>
    match db stmt with
    | .error e => ⟨none, false, some e, none, ["Query validation failed"]⟩
    | .ok result =>
      ⟨some result.rows, true, none,
       some (extractCostFromPlan parse result.rows),
       analyzeExecutionPlan result.rows⟩

/-! ## The cache layer (cacheService and the redis wrapper it delegates to)

The Redis store is modelled as an association list from keys to the stored
text.  The connected Redis client itself cannot fail in this store model;
`RedisConfig.get` catches client errors internally and converts them to `null`
anyway, so at the service layer they are indistinguishable from misses.
`CacheService.get` is additionally modelled against an arbitrary collaborator
response (`cacheServiceGetCore`), which covers thrown collaborator errors. -/

abbrev Store := List (String × String)

def storeLookup (s : Store) (k : String) : Option String :=
  s.lookup k

/-- Overwriting insert. -/
def storePut (s : Store) (k v : String) : Store :=
  (k, v) :: s.filter (fun kv => kv.1 != k)

def storeDel (s : Store) (k : String) : Store :=
  s.filter (fun kv => kv.1 != k)

/-- `RedisConfig.get(key)`: fetch the stored text; a falsy value (absent or
empty) is a miss; otherwise JSON-parse it, deleting the entry and returning
null when the stored text is corrupted. -/
def redisGet (parse : String → Option Json) (store : Store) (key : String) :
    Option Json × Store :=
  match storeLookup store key with
  | none => (none, store)
  | some v =>
    if v = "" then (none, store)
    else
      match parse v with
      | some j => (some j, store)
      | none => (none, storeDel store key)

/-- `RedisConfig.set(key, value, ttl)` as called by the cache service with a
string value: `setEx` stores `JSON.stringify(value)`, the quoted form of the
string.  The TTL has no counterpart in the timeless store model. -/
def redisSetStr (store : Store) (key v : String) : Store :=
  storePut store key (jsonStringify (.jstr v))

/-- The four cache metrics counters. -/
structure Metrics where
  hits : Nat
  misses : Nat
  errors : Nat
  totalRequests : Nat
deriving DecidableEq

namespace CacheService

/-- `CacheService.get(key, options)` against an arbitrary collaborator
response: `redisValue` is what `await redis.get(key)` produced (`.error`
models a rejection, `.ok none` the null miss, `.ok (some v)` a value).
`totalRequests` is incremented unconditionally (the source does not guard
it with trackMetrics).  On a delivered string value with parseJSON on, the
service re-parses it; if that parse throws, the source calls `this.del(key)`
— but `CacheService` defines no method `del` (`del` lives on the redis
wrapper, and the service only has `delPattern`), so the call raises a
TypeError before the guarded `errors` increment of that branch; the outer
catch then counts an error and returns the fallback.  Consequently that path
increments both `hits` and `errors` and never deletes the entry. -/
def getCore (parse : String → Option Json) (redisValue : Except String (Option Json))
    (fallback : Json) (trackMetrics parseJSON : Bool) (m : Metrics) :
    Json × Metrics :=
  let m1 := { m with totalRequests := m.totalRequests + 1 }
  match redisValue with
  | .error _ =>
    (fallback, if trackMetrics then { m1 with errors := m1.errors + 1 } else m1)
  | .ok none =>
    (fallback, if trackMetrics then { m1 with misses := m1.misses + 1 } else m1)
  | .ok (some v) =>
    let m2 := if trackMetrics then { m1 with hits := m1.hits + 1 } else m1
    match v with
    | .jstr s =>
      if parseJSON then
        match parse s with
        | some j => (j, m2)
        | none =>
          (fallback, if trackMetrics then { m2 with errors := m2.errors + 1 } else m2)
      else (v, m2)
    | _ => (v, m2)

/-- `CacheService.get` composed with the store-backed redis wrapper.  The
returned store reflects any deletion performed by the redis layer; the
service layer itself never manages to delete (see `getCore`). -/
def get (parse : String → Option Json) (store : Store) (key : String)
    (fallback : Json) (trackMetrics parseJSON : Bool) (m : Metrics) :
    Json × Store × Metrics :=
  let rv := redisGet parse store key
  let r := getCore parse (.ok rv.1) fallback trackMetrics parseJSON m
  (r.1, rv.2, r.2)

/-- `CacheService.set(key, value, ttl, options)` with the default
`stringifyJSON` (true), so the serialized value is `JSON.stringify(value)`.
When the serialized value exceeds `maxSize`: without `compress` the set is
refused; with `compress` the gzip-and-base64 text (the external `gzip`
collaborator) is stored under the modified key `key:compressed`.  In the
store model the write itself cannot fail, so the store-failure catch branch
(returning false) is unreachable here. -/
def set (gzip : String → String) (store : Store) (key : String) (value : Json)
    (compress : Bool) (maxSize : Nat) : Bool × Store :=
  let serializedValue := jsonStringify value
  if maxSize < serializedValue.length then
    if compress then
      (true, redisSetStr store (key ++ ":compressed") (gzip serializedValue))
    else
      (false, store)
  else
    (true, redisSetStr store key serializedValue)

end CacheService

/-! ## Concrete fixtures used by counterexamples and witnesses -/

/-- An arbitrary concrete query result used as cached content. -/
def cachedFixture : QueryResult :=
  ⟨[], ⟨1, 50, 0, 0, false, false⟩, ⟨0, []⟩, false⟩

/-- A cache whose only entry sits under the key derived from the raw
(unclamped) page value 0. -/
def cacheFixture : String → Option QueryResult :=
  fun k => if k = generateCacheKey "SELECT 1" 0 50 then some cachedFixture else none

/-- A database collaborator that rejects every statement. -/
def dbUnavailable : DB :=
  fun _ => .error "database unavailable"

/-- A database collaborator that accepts every statement with an empty row
set and no field descriptors. -/
def dbAlwaysOk : DB :=
  fun _ => .ok ⟨[], none⟩

/-- A database that answers the paginated statement of the C5 witness and
rejects everything else, in particular the count statement. -/
def dbCountFails : DB :=
  fun stmt => if stmt = "SELECT 1 LIMIT 50 OFFSET 0" then .ok ⟨[], none⟩ else .error "boom"

/-- A store holding, under the key k, the text of a JSON string literal whose
content is not itself valid JSON: the redis layer parses it to the string
oops, and the service layer then fails to parse that string. -/
def corruptStore : Store := [("k", "\"oops\"")]

/-- The restriction of `JSON.parse` to the two strings the corrupted-entry
scenario feeds it: parsing the stored literal succeeds and yields the string
oops, while parsing oops itself throws a SyntaxError (modelled `none`). -/
def parseOops : String → Option Json :=
  fun s => if s = "\"oops\"" then some (.jstr "oops") else none

/-! ## Shared helper lemmas -/

deriving instance DecidableEq for Except

theorem clampPage_ge_one (page : Int) : 1 ≤ clampPage page := by
  unfold clampPage; split <;> omega

theorem clampPage_idem (page : Int) : clampPage (clampPage page) = clampPage page := by
  unfold clampPage
  by_cases h : page < 1 <;> simp [h]

theorem clampPageSize_idem (ps : Int) :
    clampPageSize (clampPageSize ps) = clampPageSize ps := by
  unfold clampPageSize
  by_cases h : ps < 1 ∨ ps > 100 <;> simp [h]

theorem clampPageSize_bounds (ps : Int) :
    1 ≤ clampPageSize ps ∧ clampPageSize ps ≤ 100 := by
  unfold clampPageSize
  by_cases h : ps < 1 ∨ ps > 100
  · rw [if_pos h]; omega
  · rw [if_neg h]; omega

theorem executeWithPagination_clamp (db : DB) (dbType sql : String) (page ps : Int) :
    executeWithPagination db dbType sql (clampPage page) (clampPageSize ps)
      = executeWithPagination db dbType sql page ps := by
  unfold executeWithPagination
  rw [clampPage_idem, clampPageSize_idem]

theorem storeLookup_put_self (s : Store) (k v : String) :
    storeLookup (storePut s k v) k = some v := by
  simp [storeLookup, storePut, List.lookup]

theorem storeLookup_filter_ne (s : Store) (k k' : String) (h : k' ≠ k) :
    List.lookup k' (s.filter (fun kv => kv.1 != k)) = List.lookup k' s := by
  induction s with
  | nil => rfl
  | cons hd tl ih =>
    obtain ⟨a, b⟩ := hd
    by_cases hk : a = k
    · subst hk
      have hne : (k' == a) = false := beq_eq_false_iff_ne.mpr h
      simp [List.filter_cons, List.lookup, hne, ih]
    · have hb : (a != k) = true := bne_iff_ne.mpr hk
      by_cases hk' : k' = a
      · subst hk'
        simp [List.filter_cons, hb, List.lookup]
      · have hne : (k' == a) = false := beq_eq_false_iff_ne.mpr hk'
        simp [List.filter_cons, hb, List.lookup, hne, ih]

theorem storeLookup_put_other (s : Store) (k v k' : String) (h : k' ≠ k) :
    storeLookup (storePut s k v) k' = storeLookup s k' := by
  have hne : (k' == k) = false := beq_eq_false_iff_ne.mpr h
  simp [storeLookup, storePut, List.lookup, hne, storeLookup_filter_ne s k k' h]

theorem key_ne_compressed (k : String) : k ≠ k ++ ":compressed" := by
  intro h
  have hl := congrArg String.length h
  rw [String.length_append] at hl
  have h11 : (":compressed").length = 11 := rfl
  omega

theorem explainQuery_pg (db : DB) (parse : String → Option Json) (sql : String) :
    explainQuery db parse "postgresql" sql =
      (match db ("EXPLAIN (FORMAT JSON, ANALYZE false) " ++ sql) with
       | .error e =>
         (⟨none, false, some e, none, ["Query validation failed"]⟩ : ExplainResult)
       | .ok result =>
         ⟨some result.rows, true, none, some (extractCostFromPlan parse result.rows),
           analyzeExecutionPlan result.rows⟩) :=
  rfl

theorem explainQuery_my (db : DB) (parse : String → Option Json) (sql : String) :
    explainQuery db parse "mysql" sql =
      (match db ("EXPLAIN FORMAT=JSON " ++ sql) with
       | .error e =>
         (⟨none, false, some e, none, ["Query validation failed"]⟩ : ExplainResult)
       | .ok result =>
         ⟨some result.rows, true, none, some (extractCostFromPlan parse result.rows),
           analyzeExecutionPlan result.rows⟩) :=
  rfl

/-! ## Claim theorems -/

/-- C1: any input whose trimmed, lower-cased form contains a denylisted
keyword as a whole word is rejected by validateQuery; when the input passes
the SELECT-prefix check, the rejection message is
"Forbidden keyword detected: kw2" for a matching denylisted keyword kw2 (the
first in denylist order); in particular the keyword DELETE hidden inside an
otherwise valid SELECT ("SELECT * FROM t; DELETE FROM t") is rejected with
the message naming delete. -/
theorem validateQuery_rejects_blacklisted (sql kw : String)
    (hmem : kw ∈ blacklistedKeywords)
    (hww : wholeWordContains (normalizeSQL sql) kw.data = true) :
    (∃ msg, validateQuery sql = .error msg) ∧
    (isPrefixL "select".data (normalizeSQL sql) = true →
      ∃ kw2, kw2 ∈ blacklistedKeywords ∧
        wholeWordContains (normalizeSQL sql) kw2.data = true ∧
        validateQuery sql = .error ("Forbidden keyword detected: " ++ kw2)) ∧
    validateQuery "SELECT * FROM t; DELETE FROM t" =
      .error "Forbidden keyword detected: delete" := by
  have hfind : (blacklistedKeywords.find?
      (fun k => wholeWordContains (normalizeSQL sql) k.data)).isSome := by
    exact List.find?_isSome.mpr ⟨kw, hmem, hww⟩
  obtain ⟨kw2, hk2⟩ := Option.isSome_iff_exists.mp hfind
  have hp := List.find?_some hk2
  have hm := List.mem_of_find?_eq_some hk2
  have hfb : firstBlacklisted (normalizeSQL sql) = some kw2 := hk2
  refine ⟨?_, ?_, by decide⟩
  · cases hsel : isPrefixL "select".data (normalizeSQL sql) with
    | false =>
      exact ⟨"Only SELECT statements are allowed", by simp [validateQuery, hsel]⟩
    | true =>
      exact ⟨"Forbidden keyword detected: " ++ kw2, by simp [validateQuery, hsel, hfb]⟩
  · intro hsel
    exact ⟨kw2, hm, hp, by simp [validateQuery, hsel, hfb]⟩

/-- C1 witness: the theorem applied to the concrete statement of the claim
with the keyword delete. -/
theorem validateQuery_rejects_blacklisted_witness :
    ("delete" ∈ blacklistedKeywords ∧
      wholeWordContains (normalizeSQL "SELECT * FROM t; DELETE FROM t") "delete".data
        = true) ∧
    ((∃ msg, validateQuery "SELECT * FROM t; DELETE FROM t" = .error msg) ∧
      (isPrefixL "select".data (normalizeSQL "SELECT * FROM t; DELETE FROM t") = true →
        ∃ kw2, kw2 ∈ blacklistedKeywords ∧
          wholeWordContains (normalizeSQL "SELECT * FROM t; DELETE FROM t") kw2.data = true ∧
          validateQuery "SELECT * FROM t; DELETE FROM t" =
            .error ("Forbidden keyword detected: " ++ kw2)) ∧
      validateQuery "SELECT * FROM t; DELETE FROM t" =
        .error "Forbidden keyword detected: delete") :=
  ⟨⟨by decide, by decide⟩,
    validateQuery_rejects_blacklisted "SELECT * FROM t; DELETE FROM t" "delete"
      (by decide) (by decide)⟩

/-- C2: any input whose trimmed, lower-cased form does not begin with select
is rejected with the message "Only SELECT statements are allowed"; this is
the first check of validateQuery, so the outcome is independent of every
other property of the text. -/
theorem validateQuery_rejects_non_select (sql : String)
    (h : isPrefixL "select".data (normalizeSQL sql) = false) :
    validateQuery sql = .error "Only SELECT statements are allowed" := by
  simp [validateQuery, h]

/-- C2 witness at a concrete non-SELECT statement. -/
theorem validateQuery_rejects_non_select_witness :
    isPrefixL "select".data (normalizeSQL "DELETE FROM t") = false ∧
    validateQuery "DELETE FROM t" = .error "Only SELECT statements are allowed" :=
  ⟨by decide, validateQuery_rejects_non_select "DELETE FROM t" (by decide)⟩

/-- C3 counterexample: the line-comment pattern of the source is dash-dash
followed by a whitespace character, so an input containing a bare dash-dash
marker with no following whitespace is accepted outright, contradicting the
claim that every input containing the marker is rejected. -/
theorem validateQuery_accepts_bare_dashdash :
    containsL "select a--b from t".data "--".data = true ∧
    validateQuery "select a--b from t" = .ok () := by
  exact ⟨by decide, by decide⟩

/-- C3 amended: when the raw text matches one of the injection-shape
patterns (with the line-comment pattern being dash-dash followed by
whitespace) and the two earlier checks pass (the trimmed lower-cased text
starts with select and matches no denylisted keyword), validateQuery rejects
with "Potential SQL injection detected". -/
theorem validateQuery_rejects_injection (sql : String)
    (hsel : isPrefixL "select".data (normalizeSQL sql) = true)
    (hbl : firstBlacklisted (normalizeSQL sql) = none)
    (hinj : injectionDetected sql.data = true) :
    validateQuery sql = .error "Potential SQL injection detected" := by
  simp [validateQuery, hsel, hbl, hinj]

/-- C3 witness: a SELECT containing a genuine line comment (dash-dash plus a
space) is rejected through the injection branch. -/
theorem validateQuery_rejects_injection_witness :
    (isPrefixL "select".data (normalizeSQL "select 1 -- comment") = true ∧
      firstBlacklisted (normalizeSQL "select 1 -- comment") = none ∧
      injectionDetected "select 1 -- comment".data = true) ∧
    validateQuery "select 1 -- comment" = .error "Potential SQL injection detected" :=
  ⟨⟨by decide, by decide, by decide⟩,
    validateQuery_rejects_injection "select 1 -- comment" (by decide) (by decide) (by decide)⟩

/-- C4: the pagination rewriter strips trailing semicolons, reconciles an
existing trailing LIMIT clause by taking the minimum with the requested
limit, and appends the dialectal clause (LIMIT e OFFSET o for postgresql,
LIMIT o, e for any other configured dialect such as mysql), appending the
offset even when it is zero; with the claim's two concrete examples and a
semicolon-stripping instance. -/
theorem addPaginationToSQL_spec :
    (∀ (sql : String) (limit offset : Nat),
      (matchTrailingLimit (stripTrailingSemis (jsTrim sql.data)) = none →
        addPaginationToSQL sql limit offset "postgresql" =
          String.mk (stripTrailingSemis (jsTrim sql.data)) ++ " LIMIT " ++ toString limit
            ++ " OFFSET " ++ toString offset ∧
        addPaginationToSQL sql limit offset "mysql" =
          String.mk (stripTrailingSemis (jsTrim sql.data)) ++ " LIMIT " ++ toString offset
            ++ ", " ++ toString limit) ∧
      (∀ (n : Nat) (rest : List Char),
        matchTrailingLimit (stripTrailingSemis (jsTrim sql.data)) = some (n, rest) →
        addPaginationToSQL sql limit offset "postgresql" =
          String.mk rest ++ " LIMIT " ++ toString (min n limit) ++ " OFFSET "
            ++ toString offset ∧
        addPaginationToSQL sql limit offset "mysql" =
          String.mk rest ++ " LIMIT " ++ toString offset ++ ", " ++ toString (min n limit))) ∧
    addPaginationToSQL "SELECT * FROM orders LIMIT 5" 50 0 "postgresql" =
      "SELECT * FROM orders LIMIT 5 OFFSET 0" ∧
    addPaginationToSQL "SELECT * FROM orders" 20 ((3 - 1) * 20) "postgresql" =
      "SELECT * FROM orders LIMIT 20 OFFSET 40" ∧
    addPaginationToSQL "SELECT * FROM orders;;" 20 40 "mysql" =
      "SELECT * FROM orders LIMIT 40, 20" := by
  refine ⟨?_, by decide, by decide, by decide⟩
  intro sql limit offset
  constructor
  · intro hnone
    constructor <;> simp [addPaginationToSQL, hnone]
  · intro n rest hsome
    constructor <;> simp [addPaginationToSQL, hsome]

/-- C4 witness: the general clauses applied to a statement without and with
an existing trailing limit. -/
theorem addPaginationToSQL_spec_witness :
    (matchTrailingLimit (stripTrailingSemis (jsTrim "SELECT 1".data)) = none ∧
      addPaginationToSQL "SELECT 1" 7 9 "postgresql" = "SELECT 1 LIMIT 7 OFFSET 9") ∧
    (matchTrailingLimit (stripTrailingSemis (jsTrim "SELECT x LIMIT 5".data)) =
        some (5, "SELECT x".data) ∧
      addPaginationToSQL "SELECT x LIMIT 5" 3 9 "postgresql" =
        "SELECT x LIMIT 3 OFFSET 9") :=
  ⟨⟨by decide, ((addPaginationToSQL_spec.1 "SELECT 1" 7 9).1 (by decide)).1⟩,
    ⟨by decide,
      ((addPaginationToSQL_spec.1 "SELECT x LIMIT 5" 3 9).2 5 "SELECT x".data (by decide)).1⟩⟩

/-- C5: when the paginated statement succeeds and the count statement fails
for any reason, executeQuery still returns the primary result, with
totalRows substituted by 0 and totalPages and hasNextPage derived from that
zero. -/
theorem countFailure_returns_primary (db : DB) (dbType sql : String)
    (page pageSize : Int) (cg : String → Option QueryResult) (res : DBRes) (e : String)
    (hval : validateQuery sql = .ok ())
    (hmiss : cg (generateCacheKey sql page pageSize) = none)
    (hmain : db (addPaginationToSQL sql (clampPageSize pageSize).toNat
        ((clampPage page - 1) * clampPageSize pageSize).toNat dbType) = .ok res)
    (hcount : db (countSQL sql) = .error e) :
    ∃ r, executeQuery db dbType cg sql page pageSize true = .ok r ∧
      r.rows = res.rows ∧ r.pagination.totalRows = 0 ∧
      r.pagination.totalPages = 0 ∧ r.pagination.hasNextPage = false ∧
      r.fromCache = false := by
  have h0 : getTotalCount db sql = 0 := by simp [getTotalCount, hcount]
  have hceil : jsCeilDiv 0 (clampPageSize pageSize) = 0 := by
    simp [jsCeilDiv, Int.zero_fdiv]
  have hnext : decide (clampPage page < (0 : Int)) = false := by
    have h1 := clampPage_ge_one page
    simp only [decide_eq_false_iff_not]
    omega
  have hexec : executeWithPagination db dbType sql page pageSize = .ok
      { rows := res.rows
        pagination :=
          { page := clampPage page
            pageSize := clampPageSize pageSize
            totalRows := 0
            totalPages := 0
            hasNextPage := false
            hasPreviousPage := decide (clampPage page > 1) }
        metadata :=
          { rowCount := res.rows.length
            fields := (res.fields.map
              (fun fs => fs.map (fun f => ⟨f.name, resolveFieldType f⟩))).getD [] }
        fromCache := false } := by
    simp only [executeWithPagination]
    rw [hmain]
    simp only [h0, hceil, hnext]
  refine ⟨{ rows := res.rows
            pagination :=
              { page := clampPage page
                pageSize := clampPageSize pageSize
                totalRows := 0
                totalPages := 0
                hasNextPage := false
                hasPreviousPage := decide (clampPage page > 1) }
            metadata :=
              { rowCount := res.rows.length
                fields := (res.fields.map
                  (fun fs => fs.map (fun f => ⟨f.name, resolveFieldType f⟩))).getD [] }
            fromCache := false }, ?_, rfl, rfl, rfl, rfl, rfl⟩
  simp only [executeQuery, hval, hmiss]
  exact hexec

/-- C5 witness: a database that accepts the paginated statement and rejects
the count statement; the primary result is served with zeroed pagination
metadata. -/
theorem countFailure_returns_primary_witness :
    (validateQuery "SELECT 1" = .ok () ∧
      dbCountFails (addPaginationToSQL "SELECT 1" (clampPageSize 50).toNat
        ((clampPage 1 - 1) * clampPageSize 50).toNat "postgresql") = .ok ⟨[], none⟩ ∧
      dbCountFails (countSQL "SELECT 1") = .error "boom") ∧
    (∃ r, executeQuery dbCountFails "postgresql" (fun _ => none) "SELECT 1" 1 50 true
        = .ok r ∧
      r.rows = (⟨[], none⟩ : DBRes).rows ∧ r.pagination.totalRows = 0 ∧
      r.pagination.totalPages = 0 ∧ r.pagination.hasNextPage = false ∧
      r.fromCache = false) :=
  ⟨⟨rfl, rfl, rfl⟩,
    countFailure_returns_primary dbCountFails "postgresql" "SELECT 1" 1 50 (fun _ => none)
      ⟨[], none⟩ "boom" rfl rfl rfl rfl⟩

/-- C6 counterexample: the cache lookup of executeQuery derives its key from
the raw, unclamped page value.  With page 0 (which clamps to 1 everywhere
inside the executor) the lookup still happens under the key for 0: a cache
populated only at that raw key is hit, while the identical request with the
clamped value 1 misses it and falls through to the (failing) database. -/
theorem cacheKey_uses_raw_page :
    generateCacheKey "SELECT 1" 0 50 ≠ generateCacheKey "SELECT 1" 1 50 ∧
    executeQuery dbUnavailable "postgresql" cacheFixture "SELECT 1" 0 50 true =
      .ok { cachedFixture with fromCache := true } ∧
    executeQuery dbUnavailable "postgresql" cacheFixture "SELECT 1" 1 50 true =
      .error "Query execution failed: database unavailable" :=
  ⟨by decide, rfl, rfl⟩

/-- C6 amended: page and pageSize are clamped inside executeWithPagination
before any use there — the reported pagination metadata carries the clamped
values, which lie in the valid ranges, and running the executor on the
clamped values is indistinguishable from running it on the raw ones.  (The
cache-key derivation in executeQuery, by contrast, sees the raw values, as
the counterexample shows.) -/
theorem pagination_params_clamped (db : DB) (dbType sql : String) (page pageSize : Int)
    (r : QueryResult) (h : executeWithPagination db dbType sql page pageSize = .ok r) :
    r.pagination.page = clampPage page ∧
    r.pagination.pageSize = clampPageSize pageSize ∧
    1 ≤ r.pagination.page ∧
    1 ≤ r.pagination.pageSize ∧ r.pagination.pageSize ≤ 100 ∧
    executeWithPagination db dbType sql (clampPage page) (clampPageSize pageSize)
      = executeWithPagination db dbType sql page pageSize := by
  have hq := executeWithPagination_clamp db dbType sql page pageSize
  simp only [executeWithPagination] at h
  cases hdb : db (addPaginationToSQL sql (clampPageSize pageSize).toNat
      ((clampPage page - 1) * clampPageSize pageSize).toNat dbType) with
  | error e =>
    rw [hdb] at h
    exact absurd h (by simp)
  | ok res =>
    rw [hdb] at h
    have hr := Except.ok.inj h
    subst hr
    exact ⟨rfl, rfl, clampPage_ge_one page, (clampPageSize_bounds pageSize).1,
      (clampPageSize_bounds pageSize).2, hq⟩

/-- C6 amended witness: a request with page 0 and pageSize 500 yields
metadata carrying the clamped values 1 and 50. -/
theorem pagination_params_clamped_witness :
    executeWithPagination dbAlwaysOk "postgresql" "SELECT 1" 0 500 = .ok cachedFixture ∧
    (cachedFixture.pagination.page = clampPage 0 ∧
      cachedFixture.pagination.pageSize = clampPageSize 500 ∧
      1 ≤ cachedFixture.pagination.page ∧
      1 ≤ cachedFixture.pagination.pageSize ∧ cachedFixture.pagination.pageSize ≤ 100 ∧
      executeWithPagination dbAlwaysOk "postgresql" "SELECT 1" (clampPage 0) (clampPageSize 500)
        = executeWithPagination dbAlwaysOk "postgresql" "SELECT 1" 0 500) :=
  ⟨rfl, pagination_params_clamped dbAlwaysOk "postgresql" "SELECT 1" 0 500 cachedFixture rfl⟩

/-- C7 counterexample: a tracked get that finds a stored string value which
fails JSON deserialization increments both hits and errors on the single
call (hits is bumped before the parse attempt; the failed parse leads — via
the TypeError raised by the missing del method — to the outer catch, which
bumps errors), contradicting the exactly-one-counter claim.  The parse
oracle models JSON.parse rejecting the string oops. -/
theorem cacheGet_double_increment :
    (CacheService.getCore (fun _ => none) (.ok (some (.jstr "oops"))) .jnull true true
        ⟨0, 0, 0, 0⟩).2 = ⟨1, 0, 1, 1⟩ :=
  rfl

/-- C7 amended: every tracked get increments totalRequests by exactly one
and increments exactly one of hits, misses, errors — except on the path
where a stored string value fails JSON deserialization, which increments
both hits and errors. -/
theorem cacheGet_metrics_accounting (parse : String → Option Json)
    (redisValue : Except String (Option Json)) (fallback : Json)
    (parseJSON : Bool) (m : Metrics) :
    (CacheService.getCore parse redisValue fallback true parseJSON m).2.totalRequests
        = m.totalRequests + 1 ∧
    (((CacheService.getCore parse redisValue fallback true parseJSON m).2.hits = m.hits + 1 ∧
        (CacheService.getCore parse redisValue fallback true parseJSON m).2.misses = m.misses ∧
        (CacheService.getCore parse redisValue fallback true parseJSON m).2.errors = m.errors) ∨
      ((CacheService.getCore parse redisValue fallback true parseJSON m).2.misses = m.misses + 1 ∧
        (CacheService.getCore parse redisValue fallback true parseJSON m).2.hits = m.hits ∧
        (CacheService.getCore parse redisValue fallback true parseJSON m).2.errors = m.errors) ∨
      ((CacheService.getCore parse redisValue fallback true parseJSON m).2.errors = m.errors + 1 ∧
        (CacheService.getCore parse redisValue fallback true parseJSON m).2.hits = m.hits ∧
        (CacheService.getCore parse redisValue fallback true parseJSON m).2.misses = m.misses) ∨
      ((CacheService.getCore parse redisValue fallback true parseJSON m).2.hits = m.hits + 1 ∧
        (CacheService.getCore parse redisValue fallback true parseJSON m).2.errors = m.errors + 1 ∧
        (CacheService.getCore parse redisValue fallback true parseJSON m).2.misses = m.misses)) := by
  cases redisValue with
  | error e => exact ⟨rfl, Or.inr (Or.inr (Or.inl ⟨rfl, rfl, rfl⟩))⟩
  | ok v =>
    cases v with
    | none => exact ⟨rfl, Or.inr (Or.inl ⟨rfl, rfl, rfl⟩)⟩
    | some j =>
      cases j with
      | jnull => exact ⟨rfl, Or.inl ⟨rfl, rfl, rfl⟩⟩
      | jbool b => exact ⟨rfl, Or.inl ⟨rfl, rfl, rfl⟩⟩
      | jnum n => exact ⟨rfl, Or.inl ⟨rfl, rfl, rfl⟩⟩
      | jarr es => exact ⟨rfl, Or.inl ⟨rfl, rfl, rfl⟩⟩
      | jobj fs => exact ⟨rfl, Or.inl ⟨rfl, rfl, rfl⟩⟩
      | jstr s =>
        cases parseJSON with
        | false => exact ⟨rfl, Or.inl ⟨rfl, rfl, rfl⟩⟩
        | true =>
          cases hp : parse s with
          | some j2 =>
            simp only [CacheService.getCore, hp]
            exact ⟨rfl, Or.inl ⟨rfl, rfl, rfl⟩⟩
          | none =>
            simp only [CacheService.getCore, hp]
            exact ⟨rfl, Or.inr (Or.inr (Or.inr ⟨rfl, rfl, rfl⟩))⟩

/-- C8: evaluation of the code at the failing input.  The store holds under
the key k a JSON string literal whose content is not valid JSON; the service
level deserialization fails, the intended auto-cleanup calls the nonexistent
method this.del (a TypeError caught by the outer handler), and so the
corrupted entry is NOT deleted — the store comes back unchanged — while the
fallback is returned without raising and hits and errors are both counted. -/
theorem corrupted_entry_not_deleted :
    CacheService.get parseOops corruptStore "k" .jnull true true ⟨0, 0, 0, 0⟩
      = (.jnull, corruptStore, ⟨1, 0, 1, 1⟩) ∧
    storeLookup corruptStore "k" = some "\"oops\"" :=
  ⟨rfl, rfl⟩

/-- C9: the dry-run explain never raises: every outcome is either valid with
a present estimated cost, or invalid with exactly the single generic warning;
the unsupported-dialect, database-failure and success cases are pinned down
exactly. -/
theorem explainQuery_never_raises :
    (∀ (db : DB) (parse : String → Option Json) (dbType sql : String),
      ((explainQuery db parse dbType sql).isValid = true ∧
        ((explainQuery db parse dbType sql).estimatedCost).isSome = true) ∨
      ((explainQuery db parse dbType sql).isValid = false ∧
        (explainQuery db parse dbType sql).warnings = ["Query validation failed"])) ∧
    (∀ (db : DB) (parse : String → Option Json) (dbType sql : String),
      dbType ≠ "postgresql" → dbType ≠ "mysql" →
      explainQuery db parse dbType sql =
        ⟨none, false, some ("Explain not supported for database type: " ++ dbType),
          none, ["Query validation failed"]⟩) ∧
    (∀ (db : DB) (parse : String → Option Json) (sql e : String),
      db ("EXPLAIN (FORMAT JSON, ANALYZE false) " ++ sql) = .error e →
      explainQuery db parse "postgresql" sql =
        ⟨none, false, some e, none, ["Query validation failed"]⟩) ∧
    (∀ (db : DB) (parse : String → Option Json) (sql : String) (res : DBRes),
      db ("EXPLAIN (FORMAT JSON, ANALYZE false) " ++ sql) = .ok res →
      explainQuery db parse "postgresql" sql =
        ⟨some res.rows, true, none, some (extractCostFromPlan parse res.rows),
          analyzeExecutionPlan res.rows⟩) := by
  refine ⟨?_, ?_, ?_, ?_⟩
  · intro db parse dbType sql
    by_cases h1 : dbType = "postgresql"
    · subst h1
      rw [explainQuery_pg]
      cases hdb : db ("EXPLAIN (FORMAT JSON, ANALYZE false) " ++ sql) with
      | error e => exact Or.inr ⟨rfl, rfl⟩
      | ok res => exact Or.inl ⟨rfl, rfl⟩
    · by_cases h2 : dbType = "mysql"
      · subst h2
        rw [explainQuery_my]
        cases hdb : db ("EXPLAIN FORMAT=JSON " ++ sql) with
        | error e => exact Or.inr ⟨rfl, rfl⟩
        | ok res => exact Or.inl ⟨rfl, rfl⟩
      · simp only [explainQuery]
        rw [if_neg h1, if_neg h2]
        exact Or.inr ⟨rfl, rfl⟩
  · intro db parse dbType sql h1 h2
    simp only [explainQuery]
    rw [if_neg h1, if_neg h2]
  · intro db parse sql e hdb
    rw [explainQuery_pg, hdb]
  · intro db parse sql res hdb
    rw [explainQuery_pg, hdb]

/-- C9 witness: concrete unsupported-dialect, failing-database and
succeeding-database instances of the theorem. -/
theorem explainQuery_never_raises_witness :
    ("sqlite" ≠ ("postgresql" : String) ∧ "sqlite" ≠ ("mysql" : String) ∧
      dbUnavailable ("EXPLAIN (FORMAT JSON, ANALYZE false) " ++ "SELECT 1")
        = .error "database unavailable" ∧
      dbAlwaysOk ("EXPLAIN (FORMAT JSON, ANALYZE false) " ++ "SELECT 1") = .ok ⟨[], none⟩) ∧
    explainQuery dbUnavailable (fun _ => none) "sqlite" "SELECT 1" =
      ⟨none, false, some ("Explain not supported for database type: " ++ "sqlite"),
        none, ["Query validation failed"]⟩ ∧
    explainQuery dbUnavailable (fun _ => none) "postgresql" "SELECT 1" =
      ⟨none, false, some "database unavailable", none, ["Query validation failed"]⟩ ∧
    explainQuery dbAlwaysOk (fun _ => none) "postgresql" "SELECT 1" =
      ⟨some (⟨[], none⟩ : DBRes).rows, true, none,
        some (extractCostFromPlan (fun _ => none) (⟨[], none⟩ : DBRes).rows),
        analyzeExecutionPlan (⟨[], none⟩ : DBRes).rows⟩ :=
  ⟨⟨by decide, by decide, rfl, rfl⟩,
    explainQuery_never_raises.2.1 dbUnavailable (fun _ => none) "sqlite" "SELECT 1"
      (by decide) (by decide),
    explainQuery_never_raises.2.2.1 dbUnavailable (fun _ => none) "SELECT 1"
      "database unavailable" rfl,
    explainQuery_never_raises.2.2.2 dbAlwaysOk (fun _ => none) "SELECT 1" ⟨[], none⟩ rfl⟩

/-- C10: a set of a value whose serialized form exceeds maxSize, with
compression enabled, reports success but stores the value under the modified
key key:compressed; the original key remains absent, so a subsequent get of
that key is a miss returning the fallback. -/
theorem oversized_compressed_set_unreachable (gzip : String → String) (store : Store)
    (key : String) (value : Json) (maxSize : Nat) (parse : String → Option Json)
    (fallback : Json) (m : Metrics)
    (hsize : maxSize < (jsonStringify value).length)
    (hfresh : storeLookup store key = none) :
    (CacheService.set gzip store key value true maxSize).1 = true ∧
    storeLookup (CacheService.set gzip store key value true maxSize).2
        (key ++ ":compressed")
      = some (jsonStringify (.jstr (gzip (jsonStringify value)))) ∧
    storeLookup (CacheService.set gzip store key value true maxSize).2 key = none ∧
    (CacheService.get parse (CacheService.set gzip store key value true maxSize).2 key
        fallback true true m)
      = (fallback, (CacheService.set gzip store key value true maxSize).2,
          ⟨m.hits, m.misses + 1, m.errors, m.totalRequests + 1⟩) := by
  have hset : (CacheService.set gzip store key value true maxSize).2
      = storePut store (key ++ ":compressed")
          (jsonStringify (.jstr (gzip (jsonStringify value)))) := by
    simp [CacheService.set, redisSetStr, hsize]
  have hlook : storeLookup (CacheService.set gzip store key value true maxSize).2 key
      = none := by
    rw [hset, storeLookup_put_other _ _ _ _ (key_ne_compressed key), hfresh]
  refine ⟨?_, ?_, hlook, ?_⟩
  · simp [CacheService.set, hsize]
  · rw [hset, storeLookup_put_self]
  · simp only [CacheService.get, redisGet, hlook]
    rfl

/-- C10 witness: the null value serializes to four characters, exceeding a
maxSize of two; with compression the store gains only the modified key and
the get of the original key is a miss. -/
theorem oversized_compressed_set_unreachable_witness :
    (2 < (jsonStringify Json.jnull).length ∧ storeLookup ([] : Store) "k" = none) ∧
    ((CacheService.set (fun s => s) [] "k" .jnull true 2).1 = true ∧
      storeLookup (CacheService.set (fun s => s) [] "k" .jnull true 2).2
          ("k" ++ ":compressed")
        = some (jsonStringify (.jstr ((fun s => s) (jsonStringify Json.jnull)))) ∧
      storeLookup (CacheService.set (fun s => s) [] "k" .jnull true 2).2 "k" = none ∧
      (CacheService.get (fun _ => none) (CacheService.set (fun s => s) [] "k" .jnull true 2).2
          "k" .jnull true true ⟨0, 0, 0, 0⟩)
        = (.jnull, (CacheService.set (fun s => s) [] "k" .jnull true 2).2, ⟨0, 1, 0, 1⟩)) :=
  ⟨⟨by simp only [jsonStringify]; decide, rfl⟩,
    oversized_compressed_set_unreachable (fun s => s) [] "k" .jnull 2 (fun _ => none)
      .jnull ⟨0, 0, 0, 0⟩ (by simp only [jsonStringify]; decide) rfl⟩

end NeuroQuery
